import Mathlib

/-!
Verification of the iDotMatrix device-communication core
(repository `pracucci/idotmatrix-overclocked`).

Shallow embedding of the Go sources:
  * `pkg/protocol/gif.go`          — `SendGIF`, the animated-image ack/cache state machine
  * `pkg/protocol/graffiti.go`     — `SetPixel` / `SetPixels`
  * the file holding `SetDrawMode`, `SendImage`, `chunkBuffer` (static-image framing)
  * the file holding `SetClockMode`, `SetTime`
  * the file holding `SetPowerState`, `SetBrightness`
  * the BLE device file holding `WriteData` (514-byte MTU splitter)
  * `pkg/server/server.go`         — `withDevice`, `isConnectionError`

Bytes are modelled as `Nat` (a Go `byte(x)` cast becomes `x % 256`, a
`uint16(x)` / `uint32(x)` cast is absorbed by the little-endian encoders
below, which only ever look at the low 16 / 32 bits).  Byte sequences are
`List Nat`.  Device I/O is modelled by explicit traces: a list of written
packets, plus — for the acknowledged animated path — a device behaviour
`Nat → Option (List Nat)` giving the reply to the i-th `ReadResponse`
(`none` models a read error / timeout).
-/

/-- Little-endian encoding of the low 16 bits of `x`
(`binary.LittleEndian.PutUint16` after a `uint16` cast). -/
def le16 (x : Nat) : List Nat :=
  [x % 256, x / 256 % 256]

/-- Little-endian encoding of the low 32 bits of `x`
(`binary.LittleEndian.PutUint32` after a `uint32` cast). -/
def le32 (x : Nat) : List Nat :=
  [x % 256, x / 256 % 256, x / 65536 % 256, x / 16777216 % 256]

/-- Decode the 16-bit little-endian value stored at offset `i` of `l`
(`binary.LittleEndian.Uint16(l[i:])`, out-of-range bytes read as 0). -/
def readLE16 (l : List Nat) (i : Nat) : Nat :=
  l.getD i 0 + 256 * l.getD (i + 1) 0

/-- Decode the 32-bit little-endian value stored at offset `i` of `l`
(`binary.LittleEndian.Uint32(l[i:])`, out-of-range bytes read as 0). -/
def readLE32 (l : List Nat) (i : Nat) : Nat :=
  l.getD i 0 + 256 * l.getD (i + 1) 0 + 65536 * l.getD (i + 2) 0 +
    16777216 * l.getD (i + 3) 0

/-- `chunkBuffer` from the static-image framing file: repeatedly slice off
`min chunkSize remaining` bytes until the buffer is exhausted.
(`List.take chunkSize` is exactly the `min`-bounded slice of the Go loop.
The Go loop never terminates when `chunkSize = 0` and the buffer is
non-empty; the program only calls it at sizes 4096, 509 and 514, and the
model returns `[]` on that unreachable input.) -/
def chunkBuffer (data : List Nat) (chunkSize : Nat) : List (List Nat) :=
  if h : data = [] then []
  else if h0 : chunkSize = 0 then []
  else data.take chunkSize :: chunkBuffer (data.drop chunkSize) chunkSize
termination_by data.length
decreasing_by
  simp only [List.length_drop]
  have hpos : 0 < data.length := List.length_pos.mpr h
  omega

/-- One step of the reflected CRC-32 bit loop: shift right one bit, xor the
polynomial `0xEDB88320` in when the dropped bit was set.  This is the
bit-at-a-time definition of the table used by Go's `hash/crc32` IEEE
checksum. -/
def crc32Step (c : Nat) : Nat :=
  if c % 2 = 1 then Nat.xor (c / 2) 0xEDB88320 else c / 2

/-- `n` iterations of `crc32Step`. -/
def crc32Steps : Nat → Nat → Nat
  | 0, c => c
  | n + 1, c => crc32Steps n (crc32Step c)

/-- Fold one input byte into the running CRC-32 state. -/
def crc32UpdateByte (c b : Nat) : Nat :=
  crc32Steps 8 (Nat.xor c (b % 256))

/-- `crc32.ChecksumIEEE` (Go standard library, called by `SendGIF`):
reflected CRC-32 with polynomial `0xEDB88320`, initial value and final
xor `0xFFFFFFFF`. -/
def crc32ChecksumIEEE (data : List Nat) : Nat :=
  Nat.xor (data.foldl crc32UpdateByte 0xFFFFFFFF) 0xFFFFFFFF

/-- One observable operation performed on a `DeviceConnection`:
a `WritePacket` call carrying its packet, or a `ReadResponse` call. -/
inductive DeviceEvent where
  | write (packet : List Nat)
  | read
deriving DecidableEq

/-- `WriteData` from the BLE device file: split `data` at the 514-byte MTU
and write each slice with `WritePacket`.  Its loop is the `chunkBuffer`
loop at size 514, with every slice written in order. -/
def writeDataEvents (data : List Nat) : List DeviceEvent :=
  (chunkBuffer data 514).map DeviceEvent.write

/-- The 9-byte static-image chunk header plus the chunk, as built by
`SendImage`: packet length (u16), command 0, sub-command 0, first (0) /
continuation (2) flag, total image length (u32 little-endian), chunk. -/
def sendImageChunkPacket (imageLen : Nat) (chunk : List Nat) (ci : Nat) : List Nat :=
  le16 (chunk.length + 9) ++ [0, 0, if 0 < ci then 2 else 0] ++ le32 imageLen ++ chunk

/-- `SendImage`: split the raw RGB data into 4096-byte chunks, prepend the
9-byte header to each and hand every header+chunk to `WriteData`.  The
trace is the concatenation of each chunk's `WriteData` events; `SendImage`
contains no `ReadResponse` call, so no `read` event ever appears. -/
def sendImageEvents (imageData : List Nat) : List DeviceEvent :=
  ((chunkBuffer imageData 4096).enum.map fun p =>
    writeDataEvents (sendImageChunkPacket imageData.length p.2 p.1)).flatten

/-- The 16-byte animated-image chunk header built by `SendGIF` for the
chunk at index `ci`: packet length `chunkLen + 16` (u16), command 1,
sub-command 0, first (0) / continuation (2) flag, total GIF length (u32),
CRC-32 of the whole payload (u32), time signature `0, 0`, GIF type 12. -/
def gifHeaderBytes (gifLen crc chunkLen ci : Nat) : List Nat :=
  le16 (chunkLen + 16) ++ [1, 0, if 0 < ci then 2 else 0] ++ le32 gifLen ++
    le32 crc ++ [0, 0, 12]

/-- The BLE fragments `SendGIF` writes for one chunk: header + chunk,
split at the 509-byte GIF BLE packet size. -/
def gifChunkPackets (gifLen crc : Nat) (chunk : List Nat) (ci : Nat) : List (List Nat) :=
  chunkBuffer (gifHeaderBytes gifLen crc chunk.length ci ++ chunk) 509

/-- All BLE fragments of a list of consecutive chunks whose first element
has index `ci` (the writes `SendGIF` performs for those chunks). -/
def gifWrites (gifLen crc : Nat) : List (List Nat) → Nat → List (List Nat)
  | [], _ => []
  | chunk :: rest, ci =>
    gifChunkPackets gifLen crc chunk ci ++ gifWrites gifLen crc rest (ci + 1)

/-- The per-chunk loop of `SendGIF` (`pkg/protocol/gif.go`), called on the
suffix of the chunk list starting at index `ci`.  For each chunk it writes
the header+chunk fragments, then reads one reply (`responses ci`; `none`
models a `ReadResponse` error) and interprets the 5-byte status frame:
`[5,0,1,0,1]` = continue with the next chunk; `[5,0,1,0,3]` = complete,
accepted on the last chunk (normal end) and on the first chunk of a
multi-chunk transfer (cache hit, immediate success), an error on any other
chunk; anything else is an unexpected-response error.  Returns the packets
written from this point on and the final result. -/
def sendGIFLoop (gifLen crc : Nat) (responses : Nat → Option (List Nat)) :
    List (List Nat) → Nat → List (List Nat) × Except String Unit
  | [], _ => ([], Except.ok ())
  | chunk :: rest, ci =>
    let packets := gifChunkPackets gifLen crc chunk ci
    match responses ci with
    | none => (packets, Except.error "read response failed")
    | some resp =>
      if 5 ≤ resp.length ∧ resp.getD 0 0 = 5 ∧ resp.getD 1 0 = 0 ∧
          resp.getD 2 0 = 1 ∧ resp.getD 3 0 = 0 then
        if resp.getD 4 0 = 1 then
          let r := sendGIFLoop gifLen crc responses rest (ci + 1)
          (packets ++ r.1, r.2)
        else if resp.getD 4 0 = 3 then
          if rest = [] then (packets, Except.ok ())
          else if ci = 0 then (packets, Except.ok ())
          else (packets, Except.error "device returned upload complete prematurely")
        else (packets, Except.error "unexpected response code")
      else (packets, Except.error "unexpected response format")

/-- `SendGIF`: drain stale notifications and wait (no observable effect on
the write/reply trace), compute the CRC-32 of the whole payload once,
split the payload into 4096-byte chunks and run the per-chunk loop from
index 0.  Returns the full list of written BLE packets and the result. -/
def sendGIF (gifData : List Nat) (responses : Nat → Option (List Nat)) :
    List (List Nat) × Except String Unit :=
  sendGIFLoop gifData.length (crc32ChecksumIEEE gifData) responses
    (chunkBuffer gifData 4096) 0

/-- The coordinate bytes of a list of points, as written by the `SetPixels`
loop: `byte(p.X), byte(p.Y)` for each point in order. -/
def pixelCoordBytes (pts : List (Nat × Nat)) : List Nat :=
  (pts.map fun p => [p.1 % 256, p.2 % 256]).flatten

/-- `SetPixels` (`pkg/protocol/graffiti.go`): an empty point list writes no
packet; otherwise the list is truncated to the first 255 points and one
packet is written — size (little-endian u16, `size = 8 + 2 * numPoints`),
graffiti command `0x05, 0x01, 0x00`, the shared R,G,B, then the coordinate
pairs in order.  Returns the list of written packets. -/
def setPixels (r g b : Nat) (points : List (Nat × Nat)) : List (List Nat) :=
  if points = [] then []
  else
    let pts := points.take 255
    let size := 8 + 2 * pts.length
    [[size % 256, size / 256 % 256, 5, 1, 0, r, g, b] ++ pixelCoordBytes pts]

/-- Modelled from the spec (claim C7's wording, for the refinement proof):
the pixel-batch packet is `size:u16, 0x05,0x01,0x00, R,G,B, (X,Y)×N` with
`size = 8 + 2N`. -/
def specPixelPacket (r g b : Nat) (pts : List (Nat × Nat)) : List Nat :=
  le16 (8 + 2 * pts.length) ++ [5, 1, 0, r, g, b] ++ pixelCoordBytes pts

/-- `SetTime` from the clock-commands file: the single payload
`[11, 0, 1, 128, byte(year), byte(month), byte(day), byte(weekDay),
byte(hour), byte(minute), byte(second)]`.  Note the year byte is the Go
cast `byte(year)`, i.e. `year % 256` — not `year % 100`. -/
def setTime (year month day weekDay hour minute second : Nat) : List Nat :=
  [11, 0, 1, 128, year % 256, month % 256, day % 256, weekDay % 256,
    hour % 256, minute % 256, second % 256]

/-- `SetBrightness` from the power-commands file: clamp `percent` to at
least 5 and at most 100, then send the single payload `[5, 0, 4, 128, p]`
(handed to `WriteData`). -/
def setBrightness (percent : Nat) : List Nat :=
  let p := if percent < 5 then 5 else if 100 < percent then 100 else percent
  [5, 0, 4, 128, p]

/-- Following the spec's words for the brightness clamp (claim C10): the
sent percentage is `percent` clamped into the interval `[5, 100]`. -/
def specBrightnessPayload (percent : Nat) : List Nat :=
  [5, 0, 4, 128, max 5 (min 100 percent)]

/-- Does `sub` occur as a contiguous substring of `hay`
(`strings.Contains` on character lists)? -/
def containsSub (hay sub : List Char) : Bool :=
  (List.range (hay.length + 1)).any fun i => sub.isPrefixOf (hay.drop i)

/-- ASCII lowercasing of a character list (`strings.ToLower`; the
classifier only ever looks for ASCII words, where Go's Unicode lowering
and ASCII lowering agree). -/
def lowerChars (s : List Char) : List Char :=
  s.map Char.toLower

/-- `isConnectionError` (`pkg/server/server.go`): a `nil` error (modelled
as `none`) is not a connection error; otherwise lowercase the message and
look for any of the substrings "disconnected", "not connected",
"connection", "timeout". -/
def isConnectionError : Option (List Char) → Bool
  | none => false
  | some msg =>
    let l := lowerChars msg
    containsSub l "disconnected".data || containsSub l "not connected".data ||
      containsSub l "connection".data || containsSub l "timeout".data

/-- One unit of work handed to `withDevice`: the device operations the
function performs when it is invoked, and the error it returns (`none`
for success).  The closure seen by `withDevice` is opaque; only its trace
and result matter. -/
structure UnitOfWork where
  events : List DeviceEvent
  result : Option (List Char)

/-- `withDevice` (`pkg/server/server.go`): if the manager is not
connected, reject immediately without invoking the function (empty trace);
otherwise run the function and, when its error is classified as a
connection loss, mark the connection lost (the `go s.reconnect()` launch
is outside the trace model) and replace the error with the generic
"device disconnected, reconnecting..." message; any other outcome is
passed through with the connection still marked up.  Returns
(device trace, connected-after flag, error returned to the caller). -/
def withDevice (connected : Bool) (w : UnitOfWork) :
    List DeviceEvent × Bool × Option (List Char) :=
  if connected = false then
    ([], connected, some "device not connected, waiting for connection...".data)
  else
    match w.result with
    | some msg =>
      if isConnectionError (some msg) then
        (w.events, false, some "device disconnected, reconnecting...".data)
      else
        (w.events, connected, some msg)
    | none => (w.events, connected, none)

/-- Following the spec's words for the connection-loss classifier (claim
C6): the error message matches when, compared case-insensitively, it
contains any of the words "disconnected", "not connected", "connection",
"timeout". -/
def specConnectionLoss (msg : List Char) : Bool :=
  ["disconnected", "not connected", "connection", "timeout"].any fun w =>
    containsSub (lowerChars msg) w.data

/-- Modelled from the spec (claim C6's wording, for the refinement proof):
not connected — reject at once, the function never runs; the function's
error matches the connection-loss classifier — mark the connection lost
and report the generic disconnected-reconnecting error; any other error,
or success, is returned unchanged. -/
def withDeviceSpec (connected : Bool) (w : UnitOfWork) :
    List DeviceEvent × Bool × Option (List Char) :=
  match connected, w.result with
  | false, _ => ([], false, some "device not connected, waiting for connection...".data)
  | true, none => (w.events, true, none)
  | true, some msg =>
    if specConnectionLoss msg then
      (w.events, false, some "device disconnected, reconnecting...".data)
    else (w.events, true, some msg)

/-- Is this device event a `WritePacket` call whose packet respects the
514-byte MTU?  (`ReadResponse` events do not qualify.) -/
def isBoundedWrite : DeviceEvent → Bool
  | .write p => decide (p.length ≤ 514)
  | .read => false

/-! ### Properties of `chunkBuffer` -/

theorem chunkBuffer_nil (n : Nat) : chunkBuffer [] n = [] := by
  rw [chunkBuffer]; simp

theorem chunkBuffer_cons (data : List Nat) (n : Nat) (h : data ≠ []) (hn : 0 < n) :
    chunkBuffer data n = data.take n :: chunkBuffer (data.drop n) n := by
  rw [chunkBuffer, dif_neg h, dif_neg (Nat.pos_iff_ne_zero.mp hn)]

theorem chunkBuffer_flatten (data : List Nat) (n : Nat) (hn : 0 < n) :
    (chunkBuffer data n).flatten = data := by
  induction data, n using chunkBuffer.induct with
  | case1 n => simp [chunkBuffer_nil]
  | case2 data hne => omega
  | case3 data n hne hn0 ih =>
    rw [chunkBuffer_cons _ _ hne hn, List.flatten_cons, ih hn, List.take_append_drop]

theorem chunkBuffer_mem_length_le (data : List Nat) (n : Nat) (c : List Nat)
    (hc : c ∈ chunkBuffer data n) : c.length ≤ n := by
  induction data, n using chunkBuffer.induct with
  | case1 n => rw [chunkBuffer_nil] at hc; simp at hc
  | case2 data hne => rw [chunkBuffer, dif_neg hne] at hc; simp at hc
  | case3 data n hne hn0 ih =>
    rcases List.mem_cons.mp
      (by rw [chunkBuffer_cons _ _ hne (Nat.pos_of_ne_zero hn0)] at hc; exact hc)
      with rfl | hmem
    · simp
    · exact ih hmem

theorem chunkBuffer_mem_ne_nil (data : List Nat) (n : Nat) (c : List Nat)
    (hn : 0 < n) (hc : c ∈ chunkBuffer data n) : c ≠ [] := by
  induction data, n using chunkBuffer.induct with
  | case1 n => rw [chunkBuffer_nil] at hc; simp at hc
  | case2 data hne => omega
  | case3 data n hne hn0 ih =>
    rw [chunkBuffer_cons _ _ hne hn] at hc
    rcases List.mem_cons.mp hc with rfl | hmem
    · intro hcontra
      rcases List.take_eq_nil_iff.mp hcontra with h1 | h1
      · omega
      · exact hne h1
    · exact ih hn hmem

theorem chunkBuffer_mem_dropLast (data : List Nat) (n : Nat) (c : List Nat)
    (hc : c ∈ (chunkBuffer data n).dropLast) : c.length = n := by
  induction data, n using chunkBuffer.induct with
  | case1 n => rw [chunkBuffer_nil] at hc; simp at hc
  | case2 data hne => rw [chunkBuffer, dif_neg hne] at hc; simp at hc
  | case3 data n hne hn0 ih =>
    rw [chunkBuffer_cons _ _ hne (Nat.pos_of_ne_zero hn0)] at hc
    by_cases htail : chunkBuffer (data.drop n) n = []
    · rw [htail] at hc; simp at hc
    · rw [List.dropLast_cons_of_ne_nil htail] at hc
      rcases List.mem_cons.mp hc with rfl | hmem
      · have hdrop : data.drop n ≠ [] := by
          intro hco; rw [hco, chunkBuffer_nil] at htail; exact htail rfl
        have hlt : n < data.length := by
          have := List.length_pos.mpr hdrop
          simp [List.length_drop] at this
          omega
        simp [List.length_take]
        omega
      · exact ih hmem

theorem chunkBuffer_eq_singleton (data : List Nat) (n : Nat) (h : data ≠ [])
    (hn : 0 < n) (hlen : data.length ≤ n) : chunkBuffer data n = [data] := by
  rw [chunkBuffer_cons data n h hn, List.take_of_length_le hlen,
    List.drop_eq_nil_of_le hlen, chunkBuffer_nil]

/-! ### The CRC-32 value fits in 32 bits -/

theorem crc32Step_lt (c : Nat) (h : c < 4294967296) : crc32Step c < 4294967296 := by
  unfold crc32Step
  have h32 : (4294967296 : Nat) = 2 ^ 32 := by norm_num
  split
  · rw [h32]
    exact Nat.xor_lt_two_pow (by omega) (by norm_num)
  · omega

theorem crc32Steps_lt (n c : Nat) (h : c < 4294967296) :
    crc32Steps n c < 4294967296 := by
  induction n generalizing c with
  | zero => exact h
  | succ k ih => exact ih _ (crc32Step_lt c h)

theorem crc32UpdateByte_lt (c b : Nat) (h : c < 4294967296) :
    crc32UpdateByte c b < 4294967296 := by
  unfold crc32UpdateByte
  have h32 : (4294967296 : Nat) = 2 ^ 32 := by norm_num
  refine crc32Steps_lt _ _ ?_
  rw [h32]
  exact Nat.xor_lt_two_pow (by omega) (by omega)

theorem crc32ChecksumIEEE_lt (data : List Nat) :
    crc32ChecksumIEEE data < 4294967296 := by
  unfold crc32ChecksumIEEE
  have h32 : (4294967296 : Nat) = 2 ^ 32 := by norm_num
  have hfold : data.foldl crc32UpdateByte 0xFFFFFFFF < 4294967296 := by
    have : ∀ (l : List Nat) (c : Nat), c < 4294967296 →
        l.foldl crc32UpdateByte c < 4294967296 := by
      intro l
      induction l with
      | nil => intro c hc; exact hc
      | cons x xs ih => intro c hc; exact ih _ (crc32UpdateByte_lt c x hc)
    exact this data _ (by norm_num)
  rw [h32]
  exact Nat.xor_lt_two_pow (by omega) (by norm_num)

/-! ### Step lemmas for the SendGIF ack loop -/

theorem sendGIFLoop_nil (gifLen crc : Nat) (responses : Nat → Option (List Nat)) (ci : Nat) :
    sendGIFLoop gifLen crc responses [] ci = ([], Except.ok ()) := rfl

theorem sendGIFLoop_cons_continue (gifLen crc : Nat) (responses : Nat → Option (List Nat))
    (chunk : List Nat) (rest : List (List Nat)) (ci : Nat)
    (hr : responses ci = some [5, 0, 1, 0, 1]) :
    sendGIFLoop gifLen crc responses (chunk :: rest) ci =
      (gifChunkPackets gifLen crc chunk ci ++
        (sendGIFLoop gifLen crc responses rest (ci + 1)).1,
       (sendGIFLoop gifLen crc responses rest (ci + 1)).2) := by
  rw [sendGIFLoop, hr]
  norm_num [List.getD]

theorem sendGIFLoop_cons_complete_first (gifLen crc : Nat)
    (responses : Nat → Option (List Nat)) (chunk : List Nat) (rest : List (List Nat))
    (hrest : rest ≠ []) (hr : responses 0 = some [5, 0, 1, 0, 3]) :
    sendGIFLoop gifLen crc responses (chunk :: rest) 0 =
      (gifChunkPackets gifLen crc chunk 0, Except.ok ()) := by
  rw [sendGIFLoop, hr]
  norm_num [List.getD, hrest]

theorem sendGIFLoop_cons_complete_middle (gifLen crc : Nat)
    (responses : Nat → Option (List Nat)) (chunk : List Nat) (rest : List (List Nat))
    (ci : Nat) (hci : ci ≠ 0) (hrest : rest ≠ []) (hr : responses ci = some [5, 0, 1, 0, 3]) :
    sendGIFLoop gifLen crc responses (chunk :: rest) ci =
      (gifChunkPackets gifLen crc chunk ci,
       Except.error "device returned upload complete prematurely") := by
  rw [sendGIFLoop, hr]
  norm_num [List.getD, hrest, hci]
theorem sendGIFLoop_allContinue (gifLen crc : Nat) (responses : Nat → Option (List Nat)) :
    ∀ (l : List (List Nat)) (ci : Nat),
      (∀ j, j < l.length → responses (ci + j) = some [5, 0, 1, 0, 1]) →
      (sendGIFLoop gifLen crc responses l ci).2 = Except.ok () := by
  intro l
  induction l with
  | nil => intro ci _; rfl
  | cons chunk rest ih =>
    intro ci h
    have h0 : responses ci = some [5, 0, 1, 0, 1] := by simpa using h 0 (by simp)
    rw [sendGIFLoop_cons_continue gifLen crc responses chunk rest ci h0]
    exact ih (ci + 1) fun j hj => by
      rw [show ci + 1 + j = ci + (j + 1) from by omega]
      exact h (j + 1) (by simpa using Nat.succ_lt_succ hj)

theorem gifWrites_take_succ (gifLen crc : Nat) (chunk : List Nat)
    (rest : List (List Nat)) (ci k : Nat) :
    gifWrites gifLen crc ((chunk :: rest).take (k + 1)) ci =
      gifChunkPackets gifLen crc chunk ci ++ gifWrites gifLen crc (rest.take k) (ci + 1) := by
  rw [List.take_succ_cons, gifWrites]

theorem sendGIFLoop_middle_complete (gifLen crc : Nat)
    (responses : Nat → Option (List Nat)) (i : Nat) :
    ∀ (l : List (List Nat)) (ci : Nat), 0 < ci + i → i + 1 < l.length →
      (∀ j, j < i → responses (ci + j) = some [5, 0, 1, 0, 1]) →
      responses (ci + i) = some [5, 0, 1, 0, 3] →
      sendGIFLoop gifLen crc responses l ci =
        (gifWrites gifLen crc (l.take (i + 1)) ci,
         Except.error "device returned upload complete prematurely") := by
  induction i with
  | zero =>
    intro l ci hpos hlen _ hcomp
    cases l with
    | nil => simp at hlen
    | cons chunk rest =>
      have hrest : rest ≠ [] := by
        intro h; subst h; simp at hlen
      have hci : ci ≠ 0 := by omega
      rw [sendGIFLoop_cons_complete_middle gifLen crc responses chunk rest ci hci hrest
        (by simpa using hcomp)]
      rw [gifWrites_take_succ]
      simp [gifWrites]
  | succ k ih =>
    intro l ci hpos hlen hcont hcomp
    cases l with
    | nil => simp at hlen
    | cons chunk rest =>
      have h0 : responses ci = some [5, 0, 1, 0, 1] := by simpa using hcont 0 (by omega)
      rw [sendGIFLoop_cons_continue gifLen crc responses chunk rest ci h0]
      rw [ih rest (ci + 1) (by omega) (by simp at hlen ⊢; omega)
        (fun j hj => by
          rw [show ci + 1 + j = ci + (j + 1) from by omega]
          exact hcont (j + 1) (by omega))
        (by rw [show ci + 1 + k = ci + (k + 1) from by omega]; exact hcomp)]
      rw [gifWrites_take_succ]

/-! ### Further helpers -/

theorem chunkBuffer_length (data : List Nat) (n : Nat) (hn : 0 < n) :
    (chunkBuffer data n).length = (data.length + n - 1) / n := by
  induction data, n using chunkBuffer.induct with
  | case1 n =>
    rw [chunkBuffer_nil]
    simp only [List.length_nil]
    rw [eq_comm, Nat.div_eq_of_lt (by omega)]
  | case2 data hne => omega
  | case3 data n hne hn0 ih =>
    rw [chunkBuffer_cons _ _ hne hn]
    simp only [List.length_cons, ih hn, List.length_drop]
    have hd : 0 < data.length := List.length_pos.mpr hne
    by_cases hle : data.length ≤ n
    · rw [show data.length - n + n - 1 = n - 1 from by omega,
        Nat.div_eq_of_lt (by omega),
        show data.length + n - 1 = (data.length - 1) + n from by omega,
        Nat.add_div_right _ hn, Nat.div_eq_of_lt (by omega)]
    · rw [show data.length - n + n - 1 = data.length - 1 from by omega,
        show data.length + n - 1 = (data.length - 1) + n from by omega,
        Nat.add_div_right _ hn]

theorem pixelCoordBytes_length (pts : List (Nat × Nat)) :
    (pixelCoordBytes pts).length = 2 * pts.length := by
  induction pts with
  | nil => rfl
  | cons p ps ih =>
    simp [pixelCoordBytes] at ih ⊢
    omega

theorem isConnectionError_eq_spec (msg : List Char) :
    isConnectionError (some msg) = specConnectionLoss msg := by
  simp [isConnectionError, specConnectionLoss, Bool.or_assoc]

/-- C4: chunk/reassemble round-trip — for every byte sequence `P`,
concatenating the chunks of `chunkBuffer P 4096` in order reproduces `P`
exactly (in particular for the lengths 0, 1, 4095, 4096, 4097, 12288);
every chunk except possibly the last has length exactly 4096, and no
chunk is empty. -/
theorem chunkBuffer_roundTrip (P : List Nat) :
    (chunkBuffer P 4096).flatten = P ∧
    ((chunkBuffer P 4096).dropLast.all fun c => c.length == 4096) = true ∧
    ((chunkBuffer P 4096).all fun c => !c.isEmpty) = true := by
  refine ⟨chunkBuffer_flatten P 4096 (by norm_num), ?_, ?_⟩
  · rw [List.all_eq_true]
    intro c hc
    simpa using chunkBuffer_mem_dropLast P 4096 c hc
  · rw [List.all_eq_true]
    intro c hc
    have := chunkBuffer_mem_ne_nil P 4096 c (by norm_num) hc
    simpa [List.isEmpty_iff] using this

/-- C2: every 16-byte chunk header built by `SendGIF` within one transfer
carries at bytes 9-12 (little-endian) the CRC-32/IEEE checksum of the
entire payload, computed once; the header is 16 bytes long, and it sits at
the front of the first BLE fragment the chunk is split into, for every
chunk index. -/
theorem gifHeader_carries_payload_crc (gifData chunk : List Nat) (ci : Nat) :
    (gifHeaderBytes gifData.length (crc32ChecksumIEEE gifData) chunk.length ci).length = 16 ∧
    readLE32 (gifHeaderBytes gifData.length (crc32ChecksumIEEE gifData) chunk.length ci) 9 =
      crc32ChecksumIEEE gifData ∧
    ((gifChunkPackets gifData.length (crc32ChecksumIEEE gifData) chunk ci).headD []).take 16 =
      gifHeaderBytes gifData.length (crc32ChecksumIEEE gifData) chunk.length ci := by
  have hlt := crc32ChecksumIEEE_lt gifData
  have hlen16 :
      (gifHeaderBytes gifData.length (crc32ChecksumIEEE gifData) chunk.length ci).length = 16 := by
    simp [gifHeaderBytes, le16, le32]
  refine ⟨hlen16, ?_, ?_⟩
  · simp only [gifHeaderBytes, le16, le32, readLE32, List.append_assoc, List.cons_append,
      List.nil_append, List.getD_cons_succ, List.getD_cons_zero]
    omega
  · have hne : gifHeaderBytes gifData.length (crc32ChecksumIEEE gifData) chunk.length ci
        ++ chunk ≠ [] := by
      simp [gifHeaderBytes, le16, le32]
    rw [gifChunkPackets, chunkBuffer_cons _ _ hne (by norm_num)]
    simp only [List.headD_cons]
    rw [List.take_take]
    norm_num
    exact List.take_left' hlen16

/-- C5: the static image path never waits for an acknowledgment — the
entire device trace of `SendImage` consists solely of `WritePacket` calls,
each of at most 514 bytes; no `ReadResponse` event occurs between
fragments, between chunks, or at the end. -/
theorem sendImage_neverWaits (imageData : List Nat) :
    (sendImageEvents imageData).all isBoundedWrite = true := by
  rw [List.all_eq_true]
  intro e he
  rw [sendImageEvents] at he
  rcases List.mem_flatten.mp he with ⟨s, hs, hes⟩
  rcases List.mem_map.mp hs with ⟨p, _, rfl⟩
  rw [writeDataEvents] at hes
  rcases List.mem_map.mp hes with ⟨c, hc, rfl⟩
  have hlen := chunkBuffer_mem_length_le _ _ _ hc
  simp [isBoundedWrite, hlen]

/-- C6: serialized entry point error policy — `withDevice` agrees with the
spec-side policy `withDeviceSpec` on every connection state and unit of
work: not connected rejects without running the function; an error
matching the connection-loss substring classifier marks the connection
lost and is replaced by the generic disconnected-reconnecting error; any
other error, or success, is returned unchanged. -/
theorem withDevice_matches_spec (connected : Bool) (w : UnitOfWork) :
    withDevice connected w = withDeviceSpec connected w := by
  cases connected with
  | false => simp [withDevice, withDeviceSpec]
  | true =>
    cases hr : w.result with
    | none => simp [withDevice, withDeviceSpec, hr]
    | some msg => simp [withDevice, withDeviceSpec, hr, isConnectionError_eq_spec]

/-- C7: for every color and non-empty point list, `SetPixels` writes
exactly one packet, the spec-side packet over the first
`min N 255` points — `size:u16, 0x05,0x01,0x00, R,G,B, (X,Y)×N` with
declared size and total length both `8 + 2*min N 255` (518 when
`N > 255`). -/
theorem setPixels_packet_layout (r g b : Nat) (points : List (Nat × Nat))
    (h : points ≠ []) :
    setPixels r g b points = [specPixelPacket r g b (points.take 255)] ∧
    (specPixelPacket r g b (points.take 255)).length = 8 + 2 * min points.length 255 ∧
    readLE16 (specPixelPacket r g b (points.take 255)) 0 = 8 + 2 * min points.length 255 := by
  have hsz : (points.take 255).length = min points.length 255 := by
    simp [List.length_take, Nat.min_comm]
  refine ⟨?_, ?_, ?_⟩
  · rw [setPixels, if_neg h]
    simp [specPixelPacket, le16]
  · simp [specPixelPacket, le16, pixelCoordBytes_length, hsz]
    omega
  · simp [specPixelPacket, le16, readLE16, pixelCoordBytes_length, hsz]
    omega

theorem setPixels_packet_layout_witness :
    setPixels 255 0 0 [(10, 20)] = [specPixelPacket 255 0 0 ([((10 : Nat), (20 : Nat))].take 255)] ∧
    (specPixelPacket 255 0 0 ([((10 : Nat), (20 : Nat))].take 255)).length =
      8 + 2 * min [((10 : Nat), (20 : Nat))].length 255 ∧
    readLE16 (specPixelPacket 255 0 0 ([((10 : Nat), (20 : Nat))].take 255)) 0 =
      8 + 2 * min [((10 : Nat), (20 : Nat))].length 255 :=
  setPixels_packet_layout 255 0 0 [(10, 20)] (by decide)

/-- C8 (code bug): `SetTime` writes `byte(year) = year % 256`, not the
two-digit year `year % 100` that the claim, the wire-format table and the
repository's own protocol document require — at the full year 2026 (what
the HTTP caller passes) the year byte is 234, not 26. -/
theorem setTime_truncates_year_mod256 :
    setTime 2026 10 11 6 12 0 0 = [11, 0, 1, 128, 234, 10, 11, 6, 12, 0, 0] ∧
    (setTime 2026 10 11 6 12 0 0).getD 4 0 = 2026 % 256 ∧
    2026 % 100 = 26 ∧ (setTime 2026 10 11 6 12 0 0).getD 4 0 ≠ 2026 % 100 := by
  decide

/-- C10: `SetBrightness` clamps its percent argument into `[5, 100]` —
the payload equals the spec-side clamped payload `[5,0,4,128, p]` with
`p = max 5 (min 100 percent)`, the sent byte is always within `[5, 100]`,
and the call always writes exactly one packet (it never fails on an
out-of-range argument). -/
theorem setBrightness_clamps (percent : Nat) :
    setBrightness percent = specBrightnessPayload percent ∧
    5 ≤ (setBrightness percent).getD 4 0 ∧
    (setBrightness percent).getD 4 0 ≤ 100 ∧
    writeDataEvents (setBrightness percent) = [DeviceEvent.write (setBrightness percent)] := by
  have hgetD : (setBrightness percent).getD 4 0 =
      (if percent < 5 then 5 else if 100 < percent then 100 else percent) := rfl
  have hval : (if percent < 5 then 5 else if 100 < percent then 100 else percent) =
      max 5 (min 100 percent) := by
    split_ifs <;> omega
  refine ⟨?_, ?_, ?_, ?_⟩
  · simp only [setBrightness, specBrightnessPayload, hval]
  · rw [hgetD]; split_ifs <;> omega
  · rw [hgetD]; split_ifs <;> omega
  · rw [writeDataEvents, chunkBuffer_eq_singleton _ _ (by simp [setBrightness])
      (by norm_num) (by simp [setBrightness])]
    rfl

/-- C1: cache-hit short-circuit — for every payload larger than 4096
bytes, if the device replies `[5,0,1,0,3]` ("complete") to the first
chunk, `SendGIF` returns success immediately and the only packets ever
passed to `WritePacket` are the first chunk's fragments. -/
theorem sendGIF_cacheHit_firstChunkOnly (gifData : List Nat)
    (responses : Nat → Option (List Nat)) (hlen : 4096 < gifData.length)
    (hr : responses 0 = some [5, 0, 1, 0, 3]) :
    sendGIF gifData responses =
      (gifChunkPackets gifData.length (crc32ChecksumIEEE gifData) (gifData.take 4096) 0,
       Except.ok ()) := by
  have hne : gifData ≠ [] := by
    intro hnil; rw [hnil] at hlen; simp at hlen
  have hdne : gifData.drop 4096 ≠ [] := by
    intro hd
    have := congrArg List.length hd
    simp [List.length_drop] at this
    omega
  have hrest : chunkBuffer (gifData.drop 4096) 4096 ≠ [] := by
    rw [chunkBuffer_cons _ _ hdne (by norm_num)]
    simp
  unfold sendGIF
  rw [chunkBuffer_cons _ _ hne (by norm_num)]
  exact sendGIFLoop_cons_complete_first _ _ _ _ _ hrest hr

theorem sendGIF_cacheHit_witness :
    sendGIF (List.replicate 4097 0) (fun _ => some [5, 0, 1, 0, 3]) =
      (gifChunkPackets (List.replicate 4097 0).length
        (crc32ChecksumIEEE (List.replicate 4097 0)) ((List.replicate 4097 0).take 4096) 0,
       Except.ok ()) :=
  sendGIF_cacheHit_firstChunkOnly (List.replicate 4097 0) (fun _ => some [5, 0, 1, 0, 3])
    (by rw [List.length_replicate]; norm_num) rfl

/-- C9: if the device replies `[5,0,1,0,1]` ("continue") to every chunk,
including the final one, `SendGIF` returns success even though no
"complete" status frame was ever received. -/
theorem sendGIF_allContinue_success (gifData : List Nat)
    (responses : Nat → Option (List Nat))
    (hc : ∀ j, j < (chunkBuffer gifData 4096).length → responses j = some [5, 0, 1, 0, 1]) :
    (sendGIF gifData responses).2 = Except.ok () := by
  unfold sendGIF
  exact sendGIFLoop_allContinue gifData.length (crc32ChecksumIEEE gifData) responses
    (chunkBuffer gifData 4096) 0 fun j hj => by simpa using hc j hj

theorem sendGIF_allContinue_success_witness :
    (sendGIF [1, 2, 3] fun _ => some [5, 0, 1, 0, 1]).2 = Except.ok () :=
  sendGIF_allContinue_success [1, 2, 3] (fun _ => some [5, 0, 1, 0, 1]) fun j hj => rfl

/-- C3: premature upload-complete — for a payload of at least `i + 2`
chunks, if the device replies "continue" to every chunk before the middle
chunk `i` (`0 < i`, zero-based, not the last chunk) and "complete" to
chunk `i`, `SendGIF` returns the premature-complete protocol error and
writes no fragment of any chunk after `i`. -/
theorem sendGIF_premature_complete_error (gifData : List Nat)
    (responses : Nat → Option (List Nat)) (i : Nat) (h0 : 0 < i)
    (h1 : i + 1 < (chunkBuffer gifData 4096).length)
    (hcont : ∀ j, j < i → responses j = some [5, 0, 1, 0, 1])
    (hcomp : responses i = some [5, 0, 1, 0, 3]) :
    sendGIF gifData responses =
      (gifWrites gifData.length (crc32ChecksumIEEE gifData)
        ((chunkBuffer gifData 4096).take (i + 1)) 0,
       Except.error "device returned upload complete prematurely") := by
  unfold sendGIF
  exact sendGIFLoop_middle_complete gifData.length (crc32ChecksumIEEE gifData) responses i
    (chunkBuffer gifData 4096) 0 (by omega) h1
    (fun j hj => by simpa using hcont j hj) (by simpa using hcomp)

theorem sendGIF_premature_complete_witness :
    sendGIF (List.replicate 8193 0)
        (fun j => if j = 0 then some [5, 0, 1, 0, 1] else some [5, 0, 1, 0, 3]) =
      (gifWrites (List.replicate 8193 0).length (crc32ChecksumIEEE (List.replicate 8193 0))
        ((chunkBuffer (List.replicate 8193 0) 4096).take 2) 0,
       Except.error "device returned upload complete prematurely") :=
  sendGIF_premature_complete_error (List.replicate 8193 0)
    (fun j => if j = 0 then some [5, 0, 1, 0, 1] else some [5, 0, 1, 0, 3]) 1
    (by norm_num)
    (by rw [chunkBuffer_length _ _ (by norm_num), List.length_replicate]; norm_num)
    (fun j hj => by
      have hj0 : j = 0 := by omega
      subst hj0
      rfl)
    rfl
